import Mathlib

/-!
# Verification of boleto.js (`src/boleto.js`)

Shallow embedding of the Brazilian bank-slip ("boleto") library: the
modulo-11 checksum, the 47-digit printed number ↔ 44-digit barcode
rearrangement, validation, formatting and the derived field accessors.

Strings of the JavaScript source are modelled as `List Char`; arrays of
digits as `List Nat`.  JavaScript number arithmetic on the values that occur
here (sums of digit products, day offsets, millisecond timestamps) is exact
integer arithmetic well below 2^53, so it is modelled with `Nat`.
-/

namespace BoletoJs

/-- Numeric value of an ASCII digit character (JS coercion of a one-character
digit string to a number). -/
def charVal (c : Char) : Nat := c.toNat - 48

/-- The digit character for a value in `[0, 9]`. -/
def digitToChar (n : Nat) : Char := Char.ofNat (48 + n)

/-- The weighted sum of `modulo11`'s `for` loop, iterating over the (already
reversed) digit list with running index `i`:
`sum += ((i % 8) + 2) * digits[i]`. -/
def weightedSum : Nat → List Nat → Nat
  | _, [] => 0
  | i, d :: ds => ((i % 8) + 2) * d + weightedSum (i + 1) ds

/-- `modulo11` (src/boleto.js:17-33) on a digit array: reverse, weight
position `i` by `(i % 8) + 2`, sum, then `(11 - (sum % 11)) % 10 || 1`
(the `|| 1` replaces a falsy `0` by `1`). -/
def modulo11 (number : List Nat) : Nat :=
  let digits := number.reverse
  let sum := weightedSum 0 digits
  let r := (11 - sum % 11) % 10
  if r = 0 then 1 else r

/-- The string entry path of `modulo11`: a string argument is split into
characters, each coerced to its numeric value by the multiplication. -/
def modulo11Str (s : List Char) : Nat := modulo11 (s.map charVal)

/-- A call of `modulo11` on an ARRAY argument, observed from the caller:
the result together with the caller's array after the call.
`digits` aliases the argument and `digits.reverse()`
(Array.prototype.reverse) reverses it in place, so the caller's array ends
reversed. -/
def modulo11Call (number : List Nat) : Nat × List Nat :=
  (modulo11 number, number.reverse)

/-- A call of `modulo11` on a STRING argument, observed from the caller:
JS strings are immutable and `split('')` builds a fresh array, so the
caller's string is returned unchanged. -/
def modulo11CallStr (s : List Char) : Nat × List Char :=
  (modulo11Str s, s)

/-- Spec-side checksum, from the spec's words: reverse the sequence, pair it
with the cyclic weight list 2,3,…,9,2,3,… (weight of position `i` is
`(i % 8) + 2`), sum the products, take `(11 - (sum % 11)) % 10` and
substitute 1 when that value is 0. -/
def modulo11Digit (d : List Nat) : Nat :=
  let rev := d.reverse
  let weights := (List.range rev.length).map (fun i => i % 8 + 2)
  let total := (List.zipWith (· * ·) weights rev).sum
  let r := (11 - total % 11) % 10
  if r = 0 then 1 else r

theorem weightedSum_eq_zipWith (l : List Nat) (i : Nat) :
    weightedSum i l =
      (List.zipWith (· * ·) ((List.range l.length).map (fun j => (i + j) % 8 + 2)) l).sum := by
  induction l generalizing i with
  | nil => rfl
  | cons d ds ih =>
      simp only [weightedSum, List.length_cons, List.range_succ_eq_map,
        List.map_cons, List.map_map, List.zipWith_cons_cons, List.sum_cons]
      rw [ih (i + 1)]
      have hm : List.map (fun j => (i + 1 + j) % 8 + 2) (List.range ds.length) =
          List.map ((fun j => (i + j) % 8 + 2) ∘ Nat.succ) (List.range ds.length) := by
        apply List.map_congr_left
        intro j _
        simp only [Function.comp_apply]
        congr 2
        omega
      rw [hm]
      simp

theorem modulo11_eq_modulo11Digit (d : List Nat) : modulo11 d = modulo11Digit d := by
  simp only [modulo11, modulo11Digit, weightedSum_eq_zipWith, Nat.zero_add]

theorem modulo11_ne_zero (d : List Nat) : modulo11 d ≠ 0 := by
  simp only [modulo11]
  split
  · exact one_ne_zero
  · assumption

theorem modulo11_lt_ten (d : List Nat) : modulo11 d < 10 := by
  simp only [modulo11]
  split
  · omega
  · exact Nat.mod_lt _ (by omega)

/-- `Boleto.barcode` (src/boleto.js:79-84): the regex replace
`^(\d{4})(\d{5})\d{1}(\d{10})\d{1}(\d{10})\d{1}(\d{15})$` → `$1$5$2$3$4`.
The pattern matches exactly the strings of 47 digits; on a non-matching
string `String.prototype.replace` returns the input unchanged. -/
def toBarcode (s : List Char) : List Char :=
  if s.length = 47 ∧ s.all Char.isDigit then
    s.take 4 ++ s.drop 32 ++ (s.drop 4).take 5 ++ (s.drop 10).take 10 ++ (s.drop 21).take 10
  else s

/-- `Boleto.prettyNumber` (src/boleto.js:101-106): the regex replace
`^(\d{5})(\d{5})(\d{5})(\d{6})(\d{5})(\d{6})(\d{1})(\d{14})$` →
`'$1.$2 $3.$4 $5.$6 $7 $8'`; unchanged on a non-matching string. -/
def prettyNumber (s : List Char) : List Char :=
  if s.length = 47 ∧ s.all Char.isDigit then
    s.take 5 ++ '.' :: (s.drop 5).take 5 ++ ' ' :: (s.drop 10).take 5
      ++ '.' :: (s.drop 15).take 6 ++ ' ' :: (s.drop 21).take 5
      ++ '.' :: (s.drop 26).take 6 ++ ' ' :: (s.drop 32).take 1
      ++ ' ' :: (s.drop 33).take 14
  else s

/-- `Boleto.valid` (src/boleto.js:60-67): length-47 guard, then
`barcodeDigits.splice(4, 1)` removes the barcode character at index 4 and
returns it as a one-element array, and
`modulo11(barcodeDigits).toString() === checksum.toString()` compares the
decimal rendering of the checksum with that one-character string. -/
def valid (s : List Char) : Bool :=
  if s.length ≠ 47 then false
  else
    let barcodeDigits := toBarcode s
    let checksum := (barcodeDigits.drop 4).take 1
    let rest := barcodeDigits.eraseIdx 4
    decide ((Nat.repr (modulo11 (rest.map charVal))).toList = checksum)

/-- `Boleto.constructor` (src/boleto.js:42-48): strip every non-digit
character (`replace(/[^\d]/g, '')`), store the residue, and throw
`Invalid bank slip number` when `valid()` is false.  The throw is modelled
by `none`: no object is produced. -/
def mkBoleto (input : List Char) : Option (List Char) :=
  let bankSlipNumber := input.filter Char.isDigit
  if valid bankSlipNumber then some bankSlipNumber else none

/-- Result of `Boleto.currency` (src/boleto.js:158-163): either the
`{code, symbol, decimal}` object or the string `'Unknown'`. -/
inductive CurrencyResult where
  | info (code symbol : List Char) (decimal : Char)
  | unknown
deriving DecidableEq

/-- `Boleto.currency`: switch on `barcode()[3]`; case `'9'` yields BRL,
every other character (including the out-of-range `undefined`) falls to the
default `'Unknown'` branch. -/
def currency (s : List Char) : CurrencyResult :=
  if (toBarcode s).getD 3 ' ' = '9' then .info ['B', 'R', 'L'] ['R', '$'] ','
  else .unknown

/-- Numeric value of a digit string (JS string-to-number coercion of
`barcode().substr(...)`, an all-digit substring). -/
def natOfDigits (l : List Char) : Nat := l.foldl (fun a c => 10 * a + charVal c) 0

/-- The two-digit cent part of `toFixed(2)`. -/
def twoDigits (n : Nat) : List Char := [digitToChar (n / 10 % 10), digitToChar (n % 10)]

/-- `Boleto.amount` (src/boleto.js:198-200):
`(barcode().substr(9, 10) / 100.0).toFixed(2)`.  The 10-digit numerator is
below 2^53, so the division and `toFixed(2)` render exactly the decimal
`cents / 100` with two fraction digits. -/
def amount (s : List Char) : List Char :=
  let cents := natOfDigits (((toBarcode s).drop 9).take 10)
  (Nat.repr (cents / 100)).toList ++ '.' :: twoDigits (cents % 100)

/-- JS `String.prototype.replace` with a one-character plain-string pattern:
replaces only the first occurrence. -/
def replaceFirst (pat rep : Char) : List Char → List Char
  | [] => []
  | c :: cs => if c = pat then rep :: cs else c :: replaceFirst pat rep cs

/-- `Boleto.prettyAmount` (src/boleto.js:207-215): on an unknown currency
return `amount()` unformatted, otherwise
`` `${currency.symbol} ${this.amount().replace('.', currency.decimal)}` ``. -/
def prettyAmount (s : List Char) : List Char :=
  match currency s with
  | .unknown => amount s
  | .info _ symbol decimal => symbol ++ ' ' :: replaceFirst '.' decimal (amount s)

/-- `new Date('1997-10-07').getTime()`: the ISO date-only form is parsed as
UTC midnight, 876182400000 ms since the Unix epoch. -/
def refDateMs : Nat := 876182400000

/-- The 4-digit due-date offset `barcode().substr(5, 4)` as a number. -/
def dueDays (s : List Char) : Nat := natOfDigits (((toBarcode s).drop 5).take 4)

/-- `Boleto.expirationDate` (src/boleto.js:186-191) as the timestamp (ms
since the Unix epoch) of the returned `Date`:
`refDate.getTime() + days * 86400000`. -/
def expirationDateMs (s : List Char) : Nat :=
  refDateMs + dueDays s * 86400000

/-- Gregorian leap-year rule. -/
def isLeap (y : Nat) : Bool := (y % 4 = 0 && y % 100 ≠ 0) || y % 400 = 0

/-- Length of month `m` (1-based) of year `y`. -/
def daysInMonth (y m : Nat) : Nat :=
  if m = 2 then (if isLeap y then 29 else 28)
  else if m = 4 ∨ m = 6 ∨ m = 9 ∨ m = 11 then 30
  else 31

/-- Day number of the civil date `y-m-d` counted in days since 1970-01-01
(the Unix epoch): whole years since 1970 plus the elapsed months of year
`y` plus the elapsed days of month `m`. -/
def daysFromCivil (y m d : Nat) : Nat :=
  ((List.range (y - 1970)).map (fun k => if isLeap (1970 + k) then 366 else 365)).sum
    + ((List.range (m - 1)).map (fun k => daysInMonth y (k + 1))).sum
    + (d - 1)

/-- Split a list into consecutive groups of the given widths. -/
def splitWidths : List Nat → List Char → List (List Char)
  | [], _ => []
  | w :: ws, s => s.take w :: splitWidths ws (s.drop w)

/-- The barcode rearrangement exactly as the spec words it: groups of widths
`{4,1,5,1,10,1,10,1,15}` read as (A:4)(skip 1)(B:5)(skip 1)(C:10)(skip 1)
(D:10)(skip 1)(E:15), reassembled as `A + E + B + C + D`. -/
def toBarcodeClaimed (s : List Char) : List Char :=
  match splitWidths [4, 1, 5, 1, 10, 1, 10, 1, 15] s with
  | [a, _, b, _, c, _, d, _, e] => a ++ e ++ b ++ c ++ d
  | _ => []

/-- The barcode rearrangement with the corrected widths
`{4,5,1,10,1,10,1,15}`: (A:4)(B:5)(skip 1)(C:10)(skip 1)(D:10)(skip 1)(E:15)
— no skipped digit between A and B — reassembled as `A + E + B + C + D`. -/
def toBarcodeSpec (s : List Char) : List Char :=
  match splitWidths [4, 5, 1, 10, 1, 10, 1, 15] s with
  | [a, b, _, c, _, d, _, e] => a ++ e ++ b ++ c ++ d
  | _ => []

/-- The pretty-print mask as the spec words it: groups of widths
`{5,5,5,6,5,6,1,14}` joined with `.` after group 1, ` ` after group 2,
`.` after group 3, ` ` after group 4, `.` after group 5, ` ` after group 6
and ` ` after group 7. -/
def prettyPrintSpec (s : List Char) : List Char :=
  match splitWidths [5, 5, 5, 6, 5, 6, 1, 14] s with
  | [g1, g2, g3, g4, g5, g6, g7, g8] =>
      g1 ++ '.' :: g2 ++ ' ' :: g3 ++ '.' :: g4 ++ ' ' :: g5
        ++ '.' :: g6 ++ ' ' :: g7 ++ ' ' :: g8
  | _ => []

/-- Count of separator (non-digit) characters of a formatted output. -/
def sepCount (o : List Char) : Nat := (o.filter (fun c => !c.isDigit)).length

/-- 47 zero digits (the zero-amount, zero-offset printed layout with a wrong
checksum digit). -/
def z47 : List Char := List.replicate 47 '0'

/-- A valid printed number: all zeros except the barcode checksum digit
(printed position 32), which must be 1. -/
def w47 : List Char := List.replicate 32 '0' ++ '1' :: List.replicate 14 '0'

/-- A valid printed number with currency digit 9 (barcode position 3 comes
from printed position 3) and matching checksum digit 7. -/
def w9cur : List Char :=
  '0' :: '0' :: '0' :: '9' :: (List.replicate 28 '0' ++ '7' :: List.replicate 14 '0')

/-- A valid printed number whose due-date offset field (barcode positions
5-8, printed positions 33-36) holds 0001, with matching checksum digit 6. -/
def wDue1 : List Char :=
  List.replicate 32 '0' ++ '6' :: '0' :: '0' :: '0' :: '1' :: List.replicate 10 '0'

/-- `w47` with a leading dot and a trailing space: an input with separator
characters whose digit-only residue is `w47`. -/
def wSep : List Char := '.' :: List.replicate 32 '0' ++ '1' :: (List.replicate 14 '0' ++ [' '])

theorem repr_digit : ∀ r < 10, (Nat.repr r).toList = [digitToChar r] := by decide

theorem take_drop_chain (s : List Char) (a b c : Nat) (h : a + b = c) :
    (s.drop a).take b ++ s.drop c = s.drop a := by
  rw [← h, ← List.drop_drop, List.take_append_drop]

theorem all_take {p : Char → Bool} {s : List Char} (h : s.all p = true) (n : Nat) :
    (s.take n).all p = true := by
  simp only [List.all_eq_true] at h ⊢
  exact fun a ha => h a (List.mem_of_mem_take ha)

theorem all_drop {p : Char → Bool} {s : List Char} (h : s.all p = true) (n : Nat) :
    (s.drop n).all p = true := by
  simp only [List.all_eq_true] at h ⊢
  exact fun a ha => h a (List.mem_of_mem_drop ha)

theorem toBarcode_length {s : List Char} (h47 : s.length = 47)
    (hd : s.all Char.isDigit = true) : (toBarcode s).length = 44 := by
  simp only [toBarcode, h47, hd, and_self, if_true, List.length_append,
    List.length_take, List.length_drop]
  omega

theorem toBarcode_length_pos {s : List Char} (h47 : s.length = 47) :
    4 < (toBarcode s).length := by
  simp only [toBarcode]
  split
  · simp only [List.length_append, List.length_take, List.length_drop, h47]
    omega
  · omega

theorem take_one_drop_eq_getD {l : List Char} {n : Nat} (h : n < l.length) :
    (l.drop n).take 1 = [l.getD n ' '] := by
  rw [List.drop_eq_getElem_cons h, List.getD_eq_getElem l ' ' h]
  rfl

/-- `valid` unfolded: length 47 and the modulo-11 digit of the barcode with
index 4 removed, rendered as a character, equals the barcode character at
index 4. -/
theorem valid_iff (s : List Char) :
    valid s = true ↔
      s.length = 47 ∧
        digitToChar (modulo11Str ((toBarcode s).eraseIdx 4)) = (toBarcode s).getD 4 ' ' := by
  by_cases h : s.length = 47
  · have hpos : 4 < (toBarcode s).length := toBarcode_length_pos h
    simp only [valid, h, ne_eq, not_true_eq_false, if_false, ite_false,
      take_one_drop_eq_getD hpos, decide_eq_true_eq, true_and]
    rw [repr_digit _ (modulo11_lt_ten _)]
    simp [modulo11Str]
  · simp [valid, h]

/-- C1: for every non-empty sequence of single-digit integers `d`,
`modulo11` equals the spec's value — reverse `d`, weight position `i`
(0-based in reversed order) with `(i % 8) + 2`, sum digit·weight, take
`(11 - (sum % 11)) % 10` and substitute 1 for 0 — and consequently
`modulo11` never returns 0. -/
theorem claim_C1_modulo11_spec (d : List Nat) (_hne : d ≠ [])
    (_hdig : ∀ x ∈ d, x ≤ 9) :
    modulo11 d = modulo11Digit d ∧ modulo11 d ≠ 0 :=
  ⟨modulo11_eq_modulo11Digit d, modulo11_ne_zero d⟩

/-- Witness for C1 at the source's own doc example `modulo11('123456789')`. -/
theorem claim_C1_witness :
    modulo11 [1, 2, 3, 4, 5, 6, 7, 8, 9] = modulo11Digit [1, 2, 3, 4, 5, 6, 7, 8, 9] ∧
      modulo11 [1, 2, 3, 4, 5, 6, 7, 8, 9] ≠ 0 :=
  claim_C1_modulo11_spec [1, 2, 3, 4, 5, 6, 7, 8, 9] (by decide) (by decide)

/-- C10: `modulo11` is total on the empty input (empty array or empty
string) and returns `(11 - (0 % 11)) % 10 = 1` there. -/
theorem claim_C10_modulo11_empty :
    modulo11 [] = 1 ∧ modulo11Str [] = 1 ∧ (11 - 0 % 11) % 10 = 1 := by
  decide

/-- C9 counterexample: calling `modulo11` on the array `[1, 2]` does NOT
leave the caller's argument unchanged — `digits.reverse()` reverses the
aliased array in place, so the caller is left holding `[2, 1]`. -/
theorem claim_C9_counterexample : ¬ (modulo11Call [1, 2]).2 = [1, 2] := by
  decide

/-- C9 amended: `modulo11` is deterministic (its result is a function of
the input alone) and leaves a string argument unchanged, but a call on an
array argument reverses the caller's array in place; the argument survives
unchanged only when it is a palindrome. -/
theorem claim_C9_amended (d : List Nat) (s : List Char) :
    (modulo11Call d).1 = modulo11 d ∧ (modulo11Call d).2 = d.reverse ∧
      ((modulo11Call d).2 = d ↔ d.reverse = d) ∧
      modulo11CallStr s = (modulo11Str s, s) :=
  ⟨rfl, rfl, Iff.rfl, rfl⟩

/-- C2 counterexample: on 47 zero digits, `barcode()` does not agree with
the spec's slicing widths {4,1,5,1,10,1,10,1,15} (which sum to 48, not 47):
that slicing yields only 43 characters, not 44. -/
theorem claim_C2_counterexample :
    ¬ toBarcode z47 = toBarcodeClaimed z47 ∧ (toBarcodeClaimed z47).length = 43 := by
  constructor
  · decide
  · decide

/-- C2 amended: for every 47-digit string, `barcode()` re-slices it with
widths {4,5,1,10,1,10,1,15} — (A:4)(B:5)(skip 1)(C:10)(skip 1)(D:10)
(skip 1)(E:15), with NO skipped digit between A and B — and returns the
44-digit string `A + E + B + C + D`. -/
theorem claim_C2_amended (s : List Char) (h47 : s.length = 47)
    (hd : s.all Char.isDigit = true) :
    toBarcode s = toBarcodeSpec s ∧ (toBarcode s).length = 44 := by
  constructor
  · simp only [toBarcode, toBarcodeSpec, h47, hd, and_self, if_true, splitWidths,
      List.drop_drop]
    norm_num
    omega
  · exact toBarcode_length h47 hd

/-- Witness for C2 amended at the all-zero 47-digit string. -/
theorem claim_C2_witness :
    toBarcode z47 = toBarcodeSpec z47 ∧ (toBarcode z47).length = 44 :=
  claim_C2_amended z47 (by decide) (by decide)

/-- C3: for every stored bank-slip number, `valid()` is true iff the stored
string has length 47 and the modulo-11 digit of the barcode with the
character at index 4 removed equals the barcode character at index 4.  The
embedding of `valid` is a pure function of the stored string — the source
mutates only arrays created inside the call — so idempotence and absence of
side effects hold by construction. -/
theorem claim_C3_valid_checksum (s : List Char) :
    valid s = true ↔
      s.length = 47 ∧
        digitToChar (modulo11Str ((toBarcode s).eraseIdx 4)) = (toBarcode s).getD 4 ' ' :=
  valid_iff s

/-- C4: the constructor strips the non-digit characters, produces an object
exactly when the digit-only residue validates, and yields `none` (the
thrown error, no object) exactly when the residue's length is not 47 or its
checksum mismatches. -/
theorem claim_C4_constructor (input : List Char) :
    (mkBoleto input = none ↔
        ¬((input.filter Char.isDigit).length = 47 ∧
            digitToChar (modulo11Str ((toBarcode (input.filter Char.isDigit)).eraseIdx 4))
              = (toBarcode (input.filter Char.isDigit)).getD 4 ' ')) ∧
      (mkBoleto input = some (input.filter Char.isDigit) ↔
        valid (input.filter Char.isDigit) = true) ∧
      (∀ b, mkBoleto input = some b → b = input.filter Char.isDigit ∧ valid b = true) := by
  have hiff := valid_iff (input.filter Char.isDigit)
  by_cases h : valid (input.filter Char.isDigit) = true
  · refine ⟨?_, ?_, ?_⟩
    · simp [mkBoleto, h, hiff.mp h]
    · simp [mkBoleto, h]
    · intro b hb
      simp only [mkBoleto, h, if_true, Option.some.injEq] at hb
      exact ⟨hb.symm, hb ▸ h⟩
  · refine ⟨?_, ?_, ?_⟩
    · have hnot : ¬ (valid (input.filter Char.isDigit) = true) := h
      rw [hiff] at hnot
      have hnone : mkBoleto input = none := by simp [mkBoleto, h]
      rw [hnone]
      exact iff_of_true rfl hnot
    · simp [mkBoleto, h, Bool.eq_false_iff.mpr h]
    · intro b hb
      simp [mkBoleto, h] at hb

/-- Witness for C4 at `wSep` (a dotted/spaced input whose digit residue is
the valid `w47`): construction succeeds and returns the residue. -/
theorem claim_C4_witness :
    mkBoleto wSep = some w47 ∧ w47 = wSep.filter Char.isDigit ∧ valid w47 = true := by
  have h := (claim_C4_constructor wSep).2.2 w47 (by decide)
  exact ⟨by decide, h.1, h.2⟩

theorem filter_digit_take {s : List Char} (hd : s.all Char.isDigit = true) (b : Nat) :
    (s.take b).filter Char.isDigit = s.take b :=
  List.filter_eq_self.mpr (by
    have h := all_take hd b
    simpa [List.all_eq_true] using h)

theorem filter_digit_take_drop {s : List Char} (hd : s.all Char.isDigit = true) (a b : Nat) :
    ((s.drop a).take b).filter Char.isDigit = (s.drop a).take b :=
  List.filter_eq_self.mpr (by
    have h := all_take (all_drop hd a) b
    simpa [List.all_eq_true] using h)

/-- The round trip of the pretty mask: stripping to digits recovers the
original 47-digit string. -/
theorem prettyNumber_filter_digits {s : List Char} (h47 : s.length = 47)
    (hd : s.all Char.isDigit = true) :
    (prettyNumber s).filter Char.isDigit = s := by
  have hdot : ('.' : Char).isDigit = false := rfl
  have hsp : (' ' : Char).isDigit = false := rfl
  simp only [prettyNumber, h47, hd, and_self, if_true, List.filter_append, List.filter_cons,
    hdot, hsp, if_false, Bool.false_eq_true, filter_digit_take hd, filter_digit_take_drop hd,
    List.append_assoc]
  have h33 : List.take 14 (s.drop 33) = s.drop 33 := List.take_of_length_le (by simp [h47])
  rw [h33]
  rw [take_drop_chain s 32 1 33 (by norm_num), take_drop_chain s 26 6 32 (by norm_num),
    take_drop_chain s 21 5 26 (by norm_num), take_drop_chain s 15 6 21 (by norm_num),
    take_drop_chain s 10 5 15 (by norm_num), take_drop_chain s 5 5 10 (by norm_num),
    List.take_append_drop]

/-- C5 counterexample: on 47 zero digits the pretty output has 54
characters — 47 digits plus 7 separators — not `46 + separators = 53` as
the claim states. -/
theorem claim_C5_counterexample :
    ¬ (prettyNumber z47).length = 46 + sepCount (prettyNumber z47) := by
  decide

/-- C5 amended: for every 47-digit string the pretty output has length
`47 + number_of_separators`, and stripping the separators (the non-digit
characters) reconstructs exactly the original 47-digit string. -/
theorem claim_C5_amended (s : List Char) (h47 : s.length = 47)
    (hd : s.all Char.isDigit = true) :
    (prettyNumber s).length = 47 + sepCount (prettyNumber s) ∧
      (prettyNumber s).filter Char.isDigit = s := by
  have hfil := prettyNumber_filter_digits h47 hd
  refine ⟨?_, hfil⟩
  have h := List.length_eq_countP_add_countP Char.isDigit (prettyNumber s)
  rw [List.countP_eq_length_filter, List.countP_eq_length_filter, hfil, h47] at h
  simpa [sepCount] using h

/-- Witness for C5 amended at the all-zero 47-digit string. -/
theorem claim_C5_witness :
    (prettyNumber z47).length = 47 + sepCount (prettyNumber z47) ∧
      (prettyNumber z47).filter Char.isDigit = z47 :=
  claim_C5_amended z47 (by decide) (by decide)

/-- C6: for every 47-digit string, `prettyNumber()` re-slices it into
groups of widths {5,5,5,6,5,6,1,14} and joins them with `.` after group 1,
` ` after group 2, `.` after group 3, ` ` after group 4, `.` after group 5,
` ` after group 6 and ` ` after group 7 — the mask
`NNNNN.NNNNN NNNNN.NNNNNN NNNNN.NNNNNN N NNNNNNNNNNNNNN`. -/
theorem claim_C6_pretty_mask (s : List Char) (h47 : s.length = 47)
    (hd : s.all Char.isDigit = true) :
    prettyNumber s = prettyPrintSpec s := by
  simp only [prettyNumber, prettyPrintSpec, h47, hd, and_self, if_true, splitWidths,
    List.drop_drop]

/-- Witness for C6 at the all-zero 47-digit string. -/
theorem claim_C6_witness : prettyNumber z47 = prettyPrintSpec z47 :=
  claim_C6_pretty_mask z47 (by decide) (by decide)

/-- C7: on a validly constructed record, a `'9'` at barcode position 3
yields the BRL currency object and `prettyAmount()` renders
`R$ <amount with the dot replaced by a comma>`; any other digit yields the
string `'Unknown'` (not an error) and `prettyAmount()` is exactly the
unformatted `amount()`. -/
theorem claim_C7_currency (s : List Char) (_hv : valid s = true) :
    ((toBarcode s).getD 3 ' ' = '9' →
        currency s = .info ['B', 'R', 'L'] ['R', '$'] ',' ∧
          prettyAmount s = 'R' :: '$' :: ' ' :: replaceFirst '.' ',' (amount s)) ∧
      (¬ (toBarcode s).getD 3 ' ' = '9' →
        currency s = .unknown ∧ prettyAmount s = amount s) := by
  constructor
  · intro h9
    have hc : currency s = .info ['B', 'R', 'L'] ['R', '$'] ',' := by
      simp only [currency]
      rw [if_pos h9]
    exact ⟨hc, by simp [prettyAmount, hc]⟩
  · intro h9
    have hc : currency s = .unknown := by
      simp only [currency]
      rw [if_neg h9]
    exact ⟨hc, by simp [prettyAmount, hc]⟩

/-- Witness for C7: the `'9'` branch at `w9cur` and the other branch at
`w47`, both valid numbers. -/
theorem claim_C7_witness :
    (currency w9cur = .info ['B', 'R', 'L'] ['R', '$'] ',' ∧
        prettyAmount w9cur = 'R' :: '$' :: ' ' :: replaceFirst '.' ',' (amount w9cur)) ∧
      (currency w47 = .unknown ∧ prettyAmount w47 = amount w47) :=
  ⟨(claim_C7_currency w9cur (by decide)).1 (by decide),
   (claim_C7_currency w47 (by decide)).2 (by decide)⟩

/-- C8: on a validly constructed record, the expiration timestamp is the
day number of the epoch date 1997-10-07 plus the 4-digit offset at barcode
positions [5,9), in whole days (86400000 ms each, no timezone shift); in
particular offset 0 lands on 1997-10-07 and offset 1 on 1997-10-08. -/
theorem claim_C8_expiration (s : List Char) (_hv : valid s = true) :
    expirationDateMs s = (daysFromCivil 1997 10 7 + dueDays s) * 86400000 ∧
      (dueDays s = 0 → expirationDateMs s = daysFromCivil 1997 10 7 * 86400000) ∧
      (dueDays s = 1 → expirationDateMs s = daysFromCivil 1997 10 8 * 86400000) := by
  have h7 : daysFromCivil 1997 10 7 = 10141 := by decide
  have h8 : daysFromCivil 1997 10 8 = 10142 := by decide
  refine ⟨?_, ?_, ?_⟩
  · rw [h7]
    simp only [expirationDateMs, refDateMs]
    omega
  · intro h0
    rw [h7]
    simp only [expirationDateMs, refDateMs, h0]
  · intro h1
    rw [h8]
    simp only [expirationDateMs, refDateMs, h1]

/-- Witness for C8: offset 0 at `w47` and offset 1 at `wDue1`, both valid
numbers. -/
theorem claim_C8_witness :
    expirationDateMs w47 = daysFromCivil 1997 10 7 * 86400000 ∧
      expirationDateMs wDue1 = daysFromCivil 1997 10 8 * 86400000 :=
  ⟨(claim_C8_expiration w47 (by decide)).2.1 (by decide),
   (claim_C8_expiration wDue1 (by decide)).2.2 (by decide)⟩

end BoletoJs
